import Mathlib

/-!
Verification of the Screen-Reader repository: a shallow embedding of the
mode stack, the speech synthesizer wrapper, the keybind registry, and the
reading/table-navigation logic, together with theorems settling the
specification claims.
-/

set_option autoImplicit false

/-! ## ReaderModality (src/readermodality.ts)

The TypeScript enum `ReaderModality { NORMAL = 0, EDIT, TABLE, PAUSED }`.
-/

inductive ReaderModality where
  | NORMAL
  | EDIT
  | TABLE
  | PAUSED
deriving DecidableEq, Repr

/-- The numeric value the TypeScript enum assigns to each member
(`NORMAL = 0` and successors auto-increment). -/
def ReaderModality.toIdx : ReaderModality → Nat
  | .NORMAL => 0
  | .EDIT => 1
  | .TABLE => 2
  | .PAUSED => 3

/-! ## ModalityStack (src/modalitystack.ts)

The stack is a JS array with the top at the end; `mode()` reads
`stack[stack.length - 1]`, `pushMode` appends, and `popMode` removes the
last entry unless the stack has exactly one element.  We model it as a
`List ReaderModality` with the top at the end, matching the array layout.
-/

namespace ModalityStack

/-- The constructor: `this.stack = [ReaderModality.NORMAL, ReaderModality.PAUSED]`. -/
def initStack : List ReaderModality := [.NORMAL, .PAUSED]

/-- `popMode()`: if the stack has exactly one element, return it without
popping; otherwise pop the last element and return it.  The returned pair is
(popped-or-peeked value, stack after the call); on the (unreachable) empty
stack the JS `stack.pop()!` would yield `undefined`, modelled as `none`. -/
def popMode (s : List ReaderModality) : Option ReaderModality × List ReaderModality :=
  if s.length = 1 then (s.head?, s)
  else (s.getLast?, s.dropLast)

/-- `pushMode(mode)`: `this.stack.push(mode)` appends unconditionally. -/
def pushMode (s : List ReaderModality) (m : ReaderModality) : List ReaderModality :=
  s ++ [m]

/-- `mode()`: `this.stack[this.stack.length - 1]`, the top of the stack. -/
def mode (s : List ReaderModality) : Option ReaderModality :=
  s.getLast?

/-- An abstract client call on the stack: the only mutators are
`pushMode` and `popMode`. -/
inductive MOp where
  | push (m : ReaderModality)
  | pop
deriving Repr

/-- Run a sequence of `pushMode`/`popMode` calls against a stack. -/
def applyMOps (ops : List MOp) (s : List ReaderModality) : List ReaderModality :=
  match ops with
  | [] => s
  | .push m :: rest => applyMOps rest (pushMode s m)
  | .pop :: rest => applyMOps rest (popMode s).2

end ModalityStack

/-- Helper: both mutators keep the stack nonempty. -/
theorem modalityStack_step_nonempty (s : List ReaderModality) (hs : 1 ≤ s.length) :
    (∀ m, 1 ≤ (ModalityStack.pushMode s m).length) ∧
    1 ≤ (ModalityStack.popMode s).2.length := by
  constructor
  · intro m
    simp [ModalityStack.pushMode]
  · unfold ModalityStack.popMode
    by_cases h : s.length = 1
    · simp [h]
    · have h2 : 2 ≤ s.length := by omega
      simp only [h, if_false]
      have := s.length_dropLast
      omega

/-- Helper: any sequence of operations preserves nonemptiness. -/
theorem modalityStack_ops_nonempty (ops : List ModalityStack.MOp) :
    ∀ s : List ReaderModality, 1 ≤ s.length →
      1 ≤ (ModalityStack.applyMOps ops s).length := by
  induction ops with
  | nil => intro s hs; simpa [ModalityStack.applyMOps] using hs
  | cons op rest ih =>
    intro s hs
    cases op with
    | push m =>
      exact ih _ ((modalityStack_step_nonempty s hs).1 m)
    | pop =>
      exact ih _ (modalityStack_step_nonempty s hs).2

/-- **C1.** The ModalityStack is never empty: it starts as
`[NORMAL, PAUSED]`, `pushMode` appends one mode, `popMode` on a length-1
stack returns the sole entry without removing it, and therefore after every
sequence of `pushMode`/`popMode` calls the stack length stays ≥ 1 and
`mode()` returns a defined `ReaderModality`. -/
theorem c1_modality_stack_never_empty :
    ModalityStack.initStack = [.NORMAL, .PAUSED] ∧
    (∀ s m, ModalityStack.pushMode s m = s ++ [m]) ∧
    (∀ m : ReaderModality, ModalityStack.popMode [m] = (some m, [m])) ∧
    (∀ ops : List ModalityStack.MOp,
      1 ≤ (ModalityStack.applyMOps ops ModalityStack.initStack).length ∧
      (ModalityStack.mode (ModalityStack.applyMOps ops ModalityStack.initStack)).isSome) := by
  refine ⟨rfl, fun s m => rfl, fun m => by simp [ModalityStack.popMode], fun ops => ?_⟩
  have hlen : 1 ≤ (ModalityStack.applyMOps ops ModalityStack.initStack).length :=
    modalityStack_ops_nonempty ops ModalityStack.initStack (by simp [ModalityStack.initStack])
  refine ⟨hlen, ?_⟩
  unfold ModalityStack.mode
  cases h : ModalityStack.applyMOps ops ModalityStack.initStack with
  | nil => rw [h] at hlen; simp at hlen
  | cons a t => simp [List.getLast?_isSome]

/-! ## SpeechSynth (src/speechsynth.ts)

A wrapper around the browser speech engine `window.speechSynthesis`.  The
engine itself is environment state; we model the commands the wrapper sends
to it (`cancel`, `pause`, `resume`, `speak`) as an append-only trace, plus
the utterance currently submitted and not yet cancelled (`inFlight`).
Speech rates are JS numbers used only through multiplication and comparison
with the constants 1.1, 0.9, 0.25 and 4; we model them as rationals. -/

inductive EngineCmd where
  | cancelCmd
  | pauseCmd
  | resumeCmd
  | speakCmd (text : String) (rate : ℚ)
deriving DecidableEq, Repr

structure SpeechSynth where
  speechRate : ℚ
  isPause : Bool
  engine : List EngineCmd
  inFlight : Option String
deriving DecidableEq, Repr

namespace SpeechSynth

/-- The private constructor: cancels the engine, sets `speechRate = 1.0`
and `isPause = false`. -/
def initSynth : SpeechSynth :=
  { speechRate := 1, isPause := false, engine := [.cancelCmd], inFlight := none }

/-- `changeVoiceRate(factor)`: `this.speechRate *= factor`, then clamp:
`if (rate > 4) rate = 4; else if (rate < 0.25) rate = 0.25`. -/
def changeVoiceRate (factor : ℚ) (st : SpeechSynth) : SpeechSynth :=
  let r := st.speechRate * factor
  { st with speechRate := if r > 4 then 4 else if r < 1/4 then 1/4 else r }

/-- `increaseVoiceRate()`: `this.changeVoiceRate(1.1)`. -/
def increaseVoiceRate (st : SpeechSynth) : SpeechSynth :=
  changeVoiceRate (11/10) st

/-- `decreaseVoiceRate()`: `this.changeVoiceRate(0.9)`. -/
def decreaseVoiceRate (st : SpeechSynth) : SpeechSynth :=
  changeVoiceRate (9/10) st

/-- `stop()`: `this.voiceSynth.cancel()`, dropping the in-flight utterance. -/
def stop (st : SpeechSynth) : SpeechSynth :=
  { st with engine := st.engine ++ [.cancelCmd], inFlight := none }

/-- `pause()`: only when `!this.isPause`, issue `voiceSynth.pause()` and set
the flag. -/
def pause (st : SpeechSynth) : SpeechSynth :=
  if st.isPause then st
  else { st with engine := st.engine ++ [.pauseCmd], isPause := true }

/-- `resume()`: only when `this.isPause`, issue `voiceSynth.resume()` and
clear the flag. -/
def resume (st : SpeechSynth) : SpeechSynth :=
  if st.isPause then { st with engine := st.engine ++ [.resumeCmd], isPause := false }
  else st

/-- `stopNGo()`: dispatch to `resume`/`pause` on the flag, then
`this.isPause = (!this.isPause)`. -/
def stopNGo (st : SpeechSynth) : SpeechSynth :=
  let st2 := if st.isPause then resume st else pause st
  { st2 with isPause := !st2.isPause }

/-- `speak(text, onStart, onEnd)`: `this.stop()`, then build an utterance at
the current rate and submit it via `voiceSynth.speak(utterance)`.  The
callbacks do not affect the wrapper state and are omitted. -/
def speak (text : String) (st : SpeechSynth) : SpeechSynth :=
  let st2 := stop st
  { st2 with engine := st2.engine ++ [.speakCmd text st2.speechRate],
             inFlight := some text }

/-- An abstract client call that changes the speech rate. -/
inductive RateOp where
  | inc
  | dec
  | chg (factor : ℚ)

/-- Run a sequence of rate-changing calls. -/
def applyRateOps (ops : List RateOp) (st : SpeechSynth) : SpeechSynth :=
  match ops with
  | [] => st
  | .inc :: rest => applyRateOps rest (increaseVoiceRate st)
  | .dec :: rest => applyRateOps rest (decreaseVoiceRate st)
  | .chg f :: rest => applyRateOps rest (changeVoiceRate f st)

end SpeechSynth

/-- Helper: `changeVoiceRate` always lands in `[1/4, 4]`, whatever the
previous rate and factor. -/
theorem changeVoiceRate_mem_Icc (f : ℚ) (st : SpeechSynth) :
    1/4 ≤ (SpeechSynth.changeVoiceRate f st).speechRate ∧
    (SpeechSynth.changeVoiceRate f st).speechRate ≤ 4 := by
  unfold SpeechSynth.changeVoiceRate
  dsimp only
  split
  · norm_num
  · split
    · norm_num
    · constructor <;> linarith [le_of_not_lt (by assumption : ¬ st.speechRate * f > 4),
        le_of_not_lt (by assumption : ¬ st.speechRate * f < 1/4)]

/-- Helper: every rate-op sequence started inside `[1/4, 4]` stays there. -/
theorem applyRateOps_mem_Icc (ops : List SpeechSynth.RateOp) :
    ∀ st : SpeechSynth,
      1/4 ≤ st.speechRate → st.speechRate ≤ 4 →
      1/4 ≤ (SpeechSynth.applyRateOps ops st).speechRate ∧
      (SpeechSynth.applyRateOps ops st).speechRate ≤ 4 := by
  induction ops with
  | nil => intro st h1 h2; exact ⟨h1, h2⟩
  | cons op rest ih =>
    intro st h1 h2
    cases op with
    | inc =>
      have h := changeVoiceRate_mem_Icc (11/10) st
      exact ih _ h.1 h.2
    | dec =>
      have h := changeVoiceRate_mem_Icc (9/10) st
      exact ih _ h.1 h.2
    | chg f =>
      have h := changeVoiceRate_mem_Icc f st
      exact ih _ h.1 h.2

set_option maxRecDepth 8000 in
/-- **C6.** Starting from the initial rate 1.0, after every finite sequence
of `increaseVoiceRate`/`decreaseVoiceRate`/`changeVoiceRate(factor)` calls
the speech rate lies within [0.25, 4.0]; `changeVoiceRate` multiplies the
current rate by the factor and then clamps to that interval; and 50
`increaseVoiceRate` calls from 1.0 give exactly 4.0, not 1.1^50. -/
theorem c6_rate_clamped :
    (∀ ops : List SpeechSynth.RateOp,
      1/4 ≤ (SpeechSynth.applyRateOps ops SpeechSynth.initSynth).speechRate ∧
      (SpeechSynth.applyRateOps ops SpeechSynth.initSynth).speechRate ≤ 4) ∧
    (∀ f st, (SpeechSynth.changeVoiceRate f st).speechRate =
      max (1/4) (min 4 (st.speechRate * f))) ∧
    (SpeechSynth.applyRateOps (List.replicate 50 .inc)
      SpeechSynth.initSynth).speechRate = 4 ∧
    (4 : ℚ) ≠ (11/10) ^ 50 := by
  refine ⟨fun ops => applyRateOps_mem_Icc ops _ (by norm_num [SpeechSynth.initSynth])
      (by norm_num [SpeechSynth.initSynth]), ?_,
    by norm_num [SpeechSynth.applyRateOps, List.replicate, SpeechSynth.increaseVoiceRate,
      SpeechSynth.changeVoiceRate, SpeechSynth.initSynth], by norm_num⟩
  intro f st
  unfold SpeechSynth.changeVoiceRate
  dsimp only
  rcases lt_trichotomy (st.speechRate * f) (1/4 : ℚ) with h | h | h
  · rw [if_neg (by linarith), if_pos h, max_eq_left (by rw [min_eq_right] <;> linarith)]
  · rw [if_neg (by linarith), if_neg (by linarith), min_eq_right (by linarith),
      max_eq_right (by linarith)]
  · rcases lt_trichotomy (st.speechRate * f) (4 : ℚ) with h4 | h4 | h4
    · rw [if_neg (by linarith), if_neg (by linarith), min_eq_right (by linarith),
        max_eq_right (by linarith)]
    · rw [if_neg (by linarith), if_neg (by linarith), h4]
      norm_num
    · rw [if_pos h4]
      rw [min_eq_left (by linarith)]
      norm_num

/-- **C7.** Every `speak(text, …)` call first cancels the in-flight
utterance (via `stop()`) and only then submits the new utterance at the
current rate: the engine trace grows by `cancel` followed by the new speak
command, the new text becomes the sole in-flight utterance, and two
back-to-back `speak` calls leave only the second text in flight. -/
theorem c7_speak_cancels_first :
    (∀ (text : String) (st : SpeechSynth),
      SpeechSynth.speak text st = { SpeechSynth.stop st with
        engine := (SpeechSynth.stop st).engine ++
          [.speakCmd text st.speechRate], inFlight := some text } ∧
      (SpeechSynth.speak text st).engine =
        st.engine ++ [.cancelCmd, .speakCmd text st.speechRate] ∧
      (SpeechSynth.speak text st).inFlight = some text) ∧
    (∀ (a b : String) (st : SpeechSynth),
      (SpeechSynth.speak b (SpeechSynth.speak a st)).inFlight = some b ∧
      (SpeechSynth.speak b (SpeechSynth.speak a st)).engine =
        st.engine ++ [.cancelCmd, .speakCmd a st.speechRate,
          .cancelCmd, .speakCmd b st.speechRate]) := by
  constructor
  · intro text st
    refine ⟨rfl, ?_, rfl⟩
    simp [SpeechSynth.speak, SpeechSynth.stop]
  · intro a b st
    refine ⟨rfl, ?_⟩
    simp [SpeechSynth.speak, SpeechSynth.stop]

/-- **C8.** `pause()` and `resume()` are idempotent: pausing when already
paused, or resuming when not paused, changes nothing (no second engine
command), so `pause();pause()` equals `pause()` and `resume();resume()`
equals `resume()`. -/
theorem c8_pause_resume_idempotent (st : SpeechSynth) :
    SpeechSynth.pause (SpeechSynth.pause st) = SpeechSynth.pause st ∧
    SpeechSynth.resume (SpeechSynth.resume st) = SpeechSynth.resume st ∧
    (st.isPause = true → SpeechSynth.pause st = st) ∧
    (st.isPause = false → SpeechSynth.resume st = st) := by
  unfold SpeechSynth.pause SpeechSynth.resume
  cases h : st.isPause <;> simp [h]

/-- Witness for C8 at concrete states: a paused state (reached by one
`pause()` from the initial state) absorbs a second `pause()`, and the
initial (unpaused) state absorbs a `resume()`. -/
theorem c8_pause_resume_idempotent_witness :
    SpeechSynth.pause (SpeechSynth.pause SpeechSynth.initSynth) =
      SpeechSynth.pause SpeechSynth.initSynth ∧
    SpeechSynth.resume SpeechSynth.initSynth = SpeechSynth.initSynth := by
  refine ⟨(c8_pause_resume_idempotent (SpeechSynth.pause SpeechSynth.initSynth)).2.2.1
    (by decide), (c8_pause_resume_idempotent SpeechSynth.initSynth).2.2.2 (by decide)⟩

/-- **C9.** `stopNGo()` leaves the `isPause` flag equal to its value before
the call: the inner `pause()`/`resume()` flips the flag and the trailing
`this.isPause = (!this.isPause)` flips it back, even though the engine
actually received a pause or resume command. -/
theorem c9_stopNGo_preserves_flag (st : SpeechSynth) :
    (SpeechSynth.stopNGo st).isPause = st.isPause ∧
    (SpeechSynth.stopNGo st).engine =
      st.engine ++ [if st.isPause then .resumeCmd else .pauseCmd] := by
  unfold SpeechSynth.stopNGo SpeechSynth.pause SpeechSynth.resume
  cases h : st.isPause <;> simp [h]

/-! ## Page elements and normal-mode reading (the main screen-reader module)

`document.getElementsByTagName("*")` yields every element of the page in
document (pre)order; the reader walks that flat sequence.  We model the
page as that flat list.  The focus mark is the CSS class `__current_sr_elt`
on at most one element (`marked`); `text` is the element's `innerText` as
the browser computes it; `captions` holds the `innerHTML` of `<caption>`
descendants (used only by the `table` branch of `elementToString`). -/

structure PageElt where
  tag : String
  id : String
  text : String
  hasAlt : Bool
  alt : String
  captions : List String
  marked : Bool
deriving DecidableEq, Repr

/-- The regex replacement `elt.innerText.replace(/\r?\n|\r/g, " ")`:
each `\r\n` pair, lone `\r`, or lone `\n` becomes a single space. -/
def stripNewlines : List Char → List Char
  | [] => []
  | '\r' :: '\n' :: rest => ' ' :: stripNewlines rest
  | '\r' :: rest => ' ' :: stripNewlines rest
  | '\n' :: rest => ' ' :: stripNewlines rest
  | c :: rest => c :: stripNewlines rest

/-- The helper `innerText(elt)`: the element's innerText with newlines
replaced by spaces. -/
def innerTextOf (e : PageElt) : String :=
  ⟨stripNewlines e.text.data⟩

/-- JS truthiness of a string: the empty string is falsy, every other
string is truthy. -/
def strTruthy (s : String) : Bool :=
  s ≠ ""

/-- JS `String.prototype.toLocaleLowerCase` restricted to the ASCII tag
names it is applied to: lower-case every character. -/
def jsToLower (s : String) : String :=
  ⟨s.data.map Char.toLower⟩

/-- JS `s.startsWith(p)`. -/
def jsStartsWith (s p : String) : Bool :=
  p.data.isPrefixOf s.data

/-- `elementToString(elt)`: the tag-to-narration classification.  The `img`
branch is transcribed exactly as the JS parses it: in
`"Here is an image " + (img.hasAttribute("alt")) ? A : B` the `+` binds
tighter than `?:`, so the condition is the concatenation of the prefix with
the stringified boolean — a nonempty, hence truthy, string — and the
result is always the `A` branch. -/
def elementToString (e : PageElt) : Option String :=
  match jsToLower e.tag with
  | "title" => some ("Title: " ++ innerTextOf e)
  | "h1" => some ("Header 1: " ++ innerTextOf e)
  | "h2" => some ("Header 2: " ++ innerTextOf e)
  | "h3" => some ("Header 3: " ++ innerTextOf e)
  | "h4" => some ("Header 4: " ++ innerTextOf e)
  | "h5" => some ("Header 5: " ++ innerTextOf e)
  | "h6" => some ("Header 6: " ++ innerTextOf e)
  | "p" => some ("Paragraph: " ++ innerTextOf e)
  | "img" =>
    some (if strTruthy ("Here is an image " ++ (if e.hasAlt then "true" else "false"))
          then "with description " ++ e.alt
          else "without any description")
  | "a" => some ("This is a link to " ++ e.text ++ ". Press enter to click\n\t\t\tthis link.")
  | "button" => some ("This is a button with text " ++ innerTextOf e ++ ". Press\n\t\t\tenter to press this button.")
  | "table" =>
    let text := "This is a table "
    let text := if e.captions.length > 0
      then text ++ "with caption " ++ String.intercalate " " e.captions
      else text
    some (text ++ ". Press T to explore this table.")
  | _ => none

/-- The `for` loop scanning `document.getElementsByTagName("*")` for the
element carrying the `__current_sr_elt` class: the index of the first
marked element, or the length of the list when none is marked. -/
def findMarked (all : List PageElt) : Nat :=
  all.findIdx (·.marked)

/-- Remove the focus-mark class from the element at index `i`. -/
def unmarkAt (all : List PageElt) (i : Nat) : List PageElt :=
  match all.get? i with
  | some e => all.set i { e with marked := false }
  | none => all

/-- Add the focus-mark class to the element at index `i`. -/
def markAt (all : List PageElt) (i : Nat) : List PageElt :=
  match all.get? i with
  | some e => all.set i { e with marked := true }
  | none => all

/-- `normalRead()`, fuelled (the JS recursion advances the marked index by
one each call and stops at the last element, so `length + 1` fuel always
suffices).  Returns the updated page and the narrated string, if any:
from the current mark, return early when it sits on the last element;
otherwise unmark it (or start from index −1 when nothing is marked), mark
and focus the next element, skip it (recursing) when its id starts with
`__sr` or it has no narration, and otherwise speak its classification. -/
def normalReadAux : Nat → List PageElt → List PageElt × Option String
  | 0, all => (all, none)
  | fuel + 1, all =>
    let n : Int := all.length
    let found : Int := findMarked all
    if found = n - 1 then (all, none)
    else
      let prevIdx : Int := if found = n then -1 else found
      let all1 := if found = n then all else unmarkAt all found.toNat
      let nextIdx := (prevIdx + 1).toNat
      let all2 := markAt all1 nextIdx
      match all2.get? nextIdx with
      | none => (all2, none)
      | some e =>
        if jsStartsWith e.id "__sr" then normalReadAux fuel all2
        else
          match elementToString e with
          | some s => (all2, some s)
          | none => normalReadAux fuel all2

/-- `normalRead()` on a page. -/
def normalRead (all : List PageElt) : List PageElt × Option String :=
  normalReadAux (all.length + 1) all

/-- A fresh (unmarked) element with the given tag, id and text, no alt
attribute and no captions. -/
def mkElt (tag id text : String) : PageElt :=
  { tag := tag, id := id, text := text, hasAlt := false, alt := "",
    captions := [], marked := false }

/-- The C2 scenario page: a header, an engine-injected button (its id
carries the `__sr` prefix, as for the on-screen controls the reader adds to
the page), and a paragraph, in document order, with no focus mark. -/
def c2Page : List PageElt :=
  [mkElt "H1" "pageTitle" "Welcome",
   mkElt "BUTTON" "__sr_controls_0" "Pause [p]",
   mkElt "P" "intro" "Hello world"]

/-- **C2.** Forward reading advance visits narratable elements in document
order and skips engine-injected and non-narratable nodes: on a page of a
header, an engine-injected button and a paragraph, two `advance()`
(`normalRead`) calls from no focus narrate the header and then the
paragraph — never the injected button — and the focus mark ends on the
paragraph. -/
theorem c2_reading_order_skips_injected :
    (normalRead c2Page).2 = some "Header 1: Welcome" ∧
    (normalRead (normalRead c2Page).1).2 = some "Paragraph: Hello world" ∧
    ((normalRead (normalRead c2Page).1).1.map (fun e => e.marked)) =
      [false, false, true] := by
  refine ⟨?_, ?_, ?_⟩ <;> decide

/-- A concrete `<img>` element with no `alt` attribute. -/
def imgNoAlt : PageElt :=
  { tag := "IMG", id := "pic1", text := "", hasAlt := false, alt := "",
    captions := [], marked := false }

/-- A concrete `<img>` element with `alt="a cat"`. -/
def imgWithAlt : PageElt :=
  { tag := "IMG", id := "pic2", text := "", hasAlt := true, alt := "a cat",
    captions := [], marked := false }

/-- **C3** (code bug).  The claim says the narration of an image begins with
"Here is an image", followed by the description when the `alt` attribute is
present and a no-description note when it is absent.  In the source,
operator precedence makes `+` bind before `?:`, so the condition of the
conditional is the always-truthy string `"Here is an image " + hasAttribute`
and the result is always `"with description " + img.alt`: the narration
never contains "Here is an image", and an image without a description gets
`"with description "` rather than a no-description note. -/
theorem c3_img_narration_bug :
    elementToString imgNoAlt = some "with description " ∧
    elementToString imgWithAlt = some "with description a cat" ∧
    jsStartsWith "with description " "Here is an image" = false ∧
    jsStartsWith "with description a cat" "Here is an image" = false ∧
    "with description " ≠ "without any description" := by
  refine ⟨by decide, by decide, by decide, by decide, by decide⟩

/-! ## Table mode navigation (registerTableKeybinds / readCell)

A table is its list of `<tr>` rows in document order, each row its list of
`th,td` cells; a position is (row index, cell index within the row).  Each
arrow handler locates the focused cell, resolves its row and cell indices
(`rows.indexOf(parent)` / `siblings.indexOf(node)`), and either moves the
focus mark and reads the new cell or narrates a boundary message without
moving.  `none` models the JS crash of focusing `undefined` (reachable only
when the adjacent row has no cells at all, so that
`belowCells[Math.min(idx, -1)]` is `undefined`). -/

structure TableCell where
  isHeader : Bool
  text : String
deriving DecidableEq, Repr

/-- `readCell()`: "Column header: " for a `<th>`, "Table cell: " for a
`<td>`, followed by the cell's newline-stripped innerText. -/
def readCellStr (c : TableCell) : String :=
  (if c.isHeader then "Column header: " else "Table cell: ") ++ ⟨stripNewlines c.text.data⟩

/-- Index a row by a possibly negative JS index. -/
def getCellAt (row : List TableCell) (i : Int) : Option TableCell :=
  if i < 0 then none else row.get? i.toNat

/-- The ArrowDown handler: at the last row narrate the boundary message and
stay; otherwise focus `belowCells[Math.min(cellIdx, belowCells.length - 1)]`
in the next row and read it. -/
def moveDown (rows : List (List TableCell)) (pos : Nat × Nat) :
    Option ((Nat × Nat) × String) :=
  let (r, c) := pos
  if (r : Int) = (rows.length : Int) - 1 then
    some (pos, "There are no more rows below this one.")
  else
    let below := (rows.get? (r + 1)).getD []
    let nextIdx : Int := min (c : Int) ((below.length : Int) - 1)
    match getCellAt below nextIdx with
    | none => none
    | some cell => some ((r + 1, nextIdx.toNat), readCellStr cell)

/-- The ArrowUp handler: at row 0 narrate the boundary message and stay;
otherwise focus the clamped cell in the previous row and read it. -/
def moveUp (rows : List (List TableCell)) (pos : Nat × Nat) :
    Option ((Nat × Nat) × String) :=
  let (r, c) := pos
  if r = 0 then
    some (pos, "There are no more rows above this one.")
  else
    let above := (rows.get? (r - 1)).getD []
    let nextIdx : Int := min (c : Int) ((above.length : Int) - 1)
    match getCellAt above nextIdx with
    | none => none
    | some cell => some ((r - 1, nextIdx.toNat), readCellStr cell)

/-- The ArrowRight handler: move to the next cell of the same row if one
exists (`cellIdx < siblings.length - 1`), else narrate the boundary
message. -/
def moveRight (rows : List (List TableCell)) (pos : Nat × Nat) :
    Option ((Nat × Nat) × String) :=
  let (r, c) := pos
  let siblings := (rows.get? r).getD []
  if (c : Int) < (siblings.length : Int) - 1 then
    match siblings.get? (c + 1) with
    | none => none
    | some cell => some ((r, c + 1), readCellStr cell)
  else
    some (pos, "There are no more cells to the right.")

/-- The ArrowLeft handler: move to the previous cell of the same row if
`cellIdx > 0`, else narrate the boundary message. -/
def moveLeft (rows : List (List TableCell)) (pos : Nat × Nat) :
    Option ((Nat × Nat) × String) :=
  let (r, c) := pos
  let siblings := (rows.get? r).getD []
  if c > 0 then
    match siblings.get? (c - 1) with
    | none => none
    | some cell => some ((r, c - 1), readCellStr cell)
  else
    some (pos, "There are no more cells to the left.")

/-- One arrow-key navigation step in TABLE mode. -/
inductive TNav where
  | up
  | down
  | left
  | right

/-- Apply one navigation step. -/
def applyTNav (rows : List (List TableCell)) (pos : Nat × Nat) :
    TNav → Option ((Nat × Nat) × String)
  | .up => moveUp rows pos
  | .down => moveDown rows pos
  | .left => moveLeft rows pos
  | .right => moveRight rows pos

/-- Run a sequence of navigation steps, tracking the focused cell. -/
def runTNavs (rows : List (List TableCell)) (navs : List TNav) (pos : Nat × Nat) :
    Option (Nat × Nat) :=
  match navs with
  | [] => some pos
  | nv :: rest =>
    match applyTNav rows pos nv with
    | none => none
    | some (p, _) => runTNavs rows rest p

/-- Row 0 of the ragged C4 example table: a single header cell. -/
def c4Row0 : List TableCell := [⟨true, "A"⟩]

/-- Row 1 of the ragged C4 example table: three data cells. -/
def c4Row1 : List TableCell := [⟨false, "x"⟩, ⟨false, "y"⟩, ⟨false, "z"⟩]

/-- The ragged two-row example table of C4. -/
def c4Table : List (List TableCell) := [c4Row0, c4Row1]

/-- **C4.** Vertical table navigation clamps on ragged rows: moving down
(resp. up) to an existing nonempty adjacent row focuses and reads the cell
at index `min(c, that row's length − 1)`; moving down from the last row
(resp. up from row 0) narrates the boundary message and leaves the focused
cell unchanged; and on the 1-cell/3-cell two-row table, down, right, right,
up from (0,0) ends back at (0,0). -/
theorem c4_table_vertical_clamping :
    (∀ (rows : List (List TableCell)) (r c : Nat) (row : List TableCell),
      rows.get? (r + 1) = some row → row ≠ [] →
      ∃ cell, row.get? (min c (row.length - 1)) = some cell ∧
        moveDown rows (r, c) = some ((r + 1, min c (row.length - 1)), readCellStr cell)) ∧
    (∀ (rows : List (List TableCell)) (r c : Nat),
      rows ≠ [] → r = rows.length - 1 →
      moveDown rows (r, c) = some ((r, c), "There are no more rows below this one.")) ∧
    (∀ (rows : List (List TableCell)) (r c : Nat) (row : List TableCell),
      r ≠ 0 → rows.get? (r - 1) = some row → row ≠ [] →
      ∃ cell, row.get? (min c (row.length - 1)) = some cell ∧
        moveUp rows (r, c) = some ((r - 1, min c (row.length - 1)), readCellStr cell)) ∧
    (∀ (rows : List (List TableCell)) (c : Nat),
      moveUp rows (0, c) = some ((0, c), "There are no more rows above this one.")) ∧
    runTNavs c4Table [.down, .right, .right, .up] (0, 0) = some (0, 0) := by
  refine ⟨?_, ?_, ?_, ?_, by decide⟩
  · intro rows r c row hrow hne
    obtain ⟨hlt, hget⟩ := List.get?_eq_some.mp hrow
    have hlen : 0 < row.length := List.length_pos.mpr hne
    have hklt : min c (row.length - 1) < row.length := by omega
    refine ⟨row.get ⟨_, hklt⟩, (List.get?_eq_get hklt), ?_⟩
    unfold moveDown
    dsimp only
    rw [if_neg (by omega : ¬ ((r : Nat) : Int) = ((rows.length : Nat) : Int) - 1)]
    simp only [hrow, Option.getD_some]
    have hmin : min ((c : Nat) : Int) (((row.length : Nat) : Int) - 1) =
        ((min c (row.length - 1) : Nat) : Int) := by omega
    rw [hmin]
    unfold getCellAt
    rw [if_neg (by omega : ¬ ((min c (row.length - 1) : Nat) : Int) < 0)]
    rw [Int.toNat_natCast, List.get?_eq_get hklt]
  · intro rows r c hne hr
    have hlen : 0 < rows.length := List.length_pos.mpr hne
    unfold moveDown
    dsimp only
    rw [if_pos (by omega : ((r : Nat) : Int) = ((rows.length : Nat) : Int) - 1)]
  · intro rows r c row hr0 hrow hne
    obtain ⟨hlt, hget⟩ := List.get?_eq_some.mp hrow
    have hlen : 0 < row.length := List.length_pos.mpr hne
    have hklt : min c (row.length - 1) < row.length := by omega
    refine ⟨row.get ⟨_, hklt⟩, (List.get?_eq_get hklt), ?_⟩
    unfold moveUp
    dsimp only
    rw [if_neg hr0]
    simp only [hrow, Option.getD_some]
    have hmin : min ((c : Nat) : Int) (((row.length : Nat) : Int) - 1) =
        ((min c (row.length - 1) : Nat) : Int) := by omega
    rw [hmin]
    unfold getCellAt
    rw [if_neg (by omega : ¬ ((min c (row.length - 1) : Nat) : Int) < 0)]
    rw [Int.toNat_natCast, List.get?_eq_get hklt]
  · intro rows c
    simp [moveUp]

/-- Witness for C4 on the concrete ragged table: moving down from (0,0)
clamps into row 1, moving down from row 1 hits the bottom boundary, moving
up from (1,2) clamps back to (0,0), and moving up from row 0 hits the top
boundary. -/
theorem c4_table_vertical_clamping_witness :
    (∃ cell, c4Row1.get? (min 0 (c4Row1.length - 1)) = some cell ∧
      moveDown c4Table (0, 0) = some ((1, min 0 (c4Row1.length - 1)), readCellStr cell)) ∧
    moveDown c4Table (1, 0) = some ((1, 0), "There are no more rows below this one.") ∧
    (∃ cell, c4Row0.get? (min 2 (c4Row0.length - 1)) = some cell ∧
      moveUp c4Table (1, 2) = some ((0, min 2 (c4Row0.length - 1)), readCellStr cell)) ∧
    moveUp c4Table (0, 0) = some ((0, 0), "There are no more rows above this one.") :=
  ⟨c4_table_vertical_clamping.1 c4Table 0 0 c4Row1 (by decide) (by decide),
   c4_table_vertical_clamping.2.1 c4Table 1 0 (by decide) (by decide),
   c4_table_vertical_clamping.2.2.1 c4Table 1 2 c4Row0 (by decide) (by decide) (by decide),
   c4_table_vertical_clamping.2.2.2.1 c4Table 0⟩

/-! ## Entering TABLE mode (the `t` keybind of NORMAL mode)

The handler refuses unless the focused element is a `<table>` with at least
one `<tr>` row whose first row has at least one `th,td` cell; on refusal it
narrates a specific message and does not touch the mode stack.  On success
it focuses the first cell of the first row, pushes TABLE, and reads the
cell.  The result is (mode stack after the attempt, narration, focused cell
position if entry succeeded). -/

def enterTableMode (isTable : Bool) (rows : List (List TableCell))
    (stack : List ReaderModality) :
    List ReaderModality × String × Option (Nat × Nat) :=
  if !isTable then
    (stack, "You are currently not hovering over a table element.", none)
  else if rows.length = 0 then
    (stack, "This table has no rows.", none)
  else if (rows.headD []).length = 0 then
    (stack, "This table has no columns.", none)
  else
    (ModalityStack.pushMode stack .TABLE,
     readCellStr ((rows.headD []).headD ⟨false, ""⟩),
     some (0, 0))

/-- **C5.** Entering table mode is guarded: a non-table focus, a table with
zero rows, and a table whose first row has no header-or-data cells each
narrate their specific message and leave the mode stack — hence `mode()` —
unchanged; only a table whose first row has at least one cell pushes TABLE
(making it the current mode), focuses cell (0,0) of the first row, and
reads that cell. -/
theorem c5_table_entry_guarded :
    (∀ (rows : List (List TableCell)) (stack : List ReaderModality),
      enterTableMode false rows stack =
        (stack, "You are currently not hovering over a table element.", none)) ∧
    (∀ stack : List ReaderModality,
      enterTableMode true [] stack = (stack, "This table has no rows.", none)) ∧
    (∀ (rest : List (List TableCell)) (stack : List ReaderModality),
      enterTableMode true ([] :: rest) stack =
        (stack, "This table has no columns.", none)) ∧
    (∀ (cell : TableCell) (row : List TableCell) (rest : List (List TableCell))
        (stack : List ReaderModality),
      enterTableMode true ((cell :: row) :: rest) stack =
        (ModalityStack.pushMode stack .TABLE, readCellStr cell, some (0, 0)) ∧
      ModalityStack.mode (enterTableMode true ((cell :: row) :: rest) stack).1 =
        some .TABLE) := by
  refine ⟨fun rows stack => rfl, fun stack => rfl, fun rest stack => rfl,
    fun cell row rest stack => ⟨rfl, ?_⟩⟩
  simp [enterTableMode, ModalityStack.mode, ModalityStack.pushMode]

/-! ## Keybinds (src/keybinds.ts)

The keybind registry is a JS array indexed by the numeric enum values of
`ReaderModality`; each entry is an object mapping key names to a
description and callback.  We model the array as a `List (Option Binds)`
(`none` is a JS hole/`undefined`), and a binds object as an association
list from key name to description, in insertion order; the callback itself
is behaviour, not data, and is left out. -/

abbrev Binds := List (String × String)

/-- The numeric own-keys of the compiled `ReaderModality` enum object
(TypeScript builds the 2-way dict, and the constructor keeps the keys for
which `Number(key)` is not `NaN`): 0, 1, 2, 3. -/
def modalityNumericKeys : List Nat := [0, 1, 2, 3]

/-- JS `arr[i] = v` on a possibly short array: missing slots up to `i`
become holes. -/
def setAt (l : List (Option Binds)) (i : Nat) (v : Binds) : List (Option Binds) :=
  let padded := if l.length ≤ i then l ++ List.replicate (i + 1 - l.length) none else l
  padded.set i (some v)

/-- The `Keybinds` constructor: start with `[]` and set an empty binds
object at each numeric enum key. -/
def mkKeybinds : List (Option Binds) :=
  modalityNumericKeys.foldl (fun l i => setAt l i []) []

/-- The array access `this.keybinds[forMode]`: `none` when the slot is a
hole or out of range (JS `undefined`). -/
def lookupMode (kb : List (Option Binds)) (m : ReaderModality) : Option Binds :=
  (kb.get? m.toIdx).join

/-- JS property assignment `obj[key] = value` on a binds object: overwrite
in place when the key exists, else append. -/
def updateAssoc (b : Binds) (k v : String) : Binds :=
  if b.any (fun p => p.1 = k) then b.map (fun p => if p.1 = k then (k, v) else p)
  else b ++ [(k, v)]

/-- `registerKeybind(forMode, keyName, description, callback)`:
`this.keybinds[forMode][keyName] = {…}`.  If the slot is `undefined` the JS
throws (`none`); otherwise the updated registry is returned. -/
def registerKeybind (kb : List (Option Binds)) (forMode : ReaderModality)
    (keyName description : String) : Option (List (Option Binds)) :=
  match lookupMode kb forMode with
  | none => none
  | some b => some (kb.set forMode.toIdx (some (updateAssoc b keyName description)))

/-- `triggerEvent(mode, event)`: look up `this.keybinds[mode][event.key]`
and fire the callback if present.  `none` models the JS throw on an
undefined slot; the boolean records whether a callback fired. -/
def triggerEvent (kb : List (Option Binds)) (m : ReaderModality) (key : String) :
    Option Bool :=
  (lookupMode kb m).map (fun b => b.any (fun p => p.1 = key))

/-- `Keybinds.enunciateKey(keyName)`: the fixed lookup table with the key
name itself as fallback. -/
def enunciateKey (keyName : String) : String :=
  if keyName = "a" then "A."
  else if keyName = "ArrowRight" then "the right arrow"
  else if keyName = "ArrowLeft" then "the left arrow"
  else if keyName = "ArrowUp" then "the up arrow"
  else if keyName = "ArrowDown" then "the down arrow"
  else if keyName = " " then "space"
  else if keyName = "F1" then "F 1"
  else keyName

/-- `getHelpString(mode)`: fold the entries of `this.keybinds[mode]` into
the help sentence.  `none` models the JS throw on an undefined slot. -/
def getHelpString (kb : List (Option Binds)) (m : ReaderModality) : Option String :=
  (lookupMode kb m).map (fun b =>
    b.foldl (fun acc p => acc ++ " Press " ++ enunciateKey p.1 ++ " to " ++ p.2 ++ ". ") "")

/-- `getAllKeybinds(mode)`: the raw binds object `this.keybinds[mode]`. -/
def getAllKeybinds (kb : List (Option Binds)) (m : ReaderModality) : Option Binds :=
  lookupMode kb m

/-- A registry with a defined binds object at the index of every
`ReaderModality` value. -/
def allModesDefined (kb : List (Option Binds)) : Prop :=
  ∀ m : ReaderModality, ∃ b, lookupMode kb m = some b

/-- Helper: setting an already-defined slot keeps every mode's slot
defined. -/
theorem allModesDefined_set (kb : List (Option Binds)) (hkb : allModesDefined kb)
    (m : ReaderModality) (v : Binds) :
    allModesDefined (kb.set m.toIdx (some v)) := by
  intro m2
  obtain ⟨b2, hb2⟩ := hkb m2
  obtain ⟨bm, hbm⟩ := hkb m
  unfold lookupMode at hb2 hbm ⊢
  have hlt : m.toIdx < kb.length := by
    by_contra hge
    rw [List.get?_eq_getElem?, List.getElem?_eq_none (by omega)] at hbm
    simp at hbm
  rw [List.get?_set_of_lt' _ _ hlt]
  by_cases h : m.toIdx = m2.toIdx
  · rw [if_pos h]
    exact ⟨v, rfl⟩
  · rw [if_neg h]
    exact ⟨b2, hb2⟩

/-- **C10.** The `Keybinds` constructor initializes a binds object at the
array index of every `ReaderModality` value, so for every mode
`registerKeybind`, `triggerEvent`, `getHelpString` and `getAllKeybinds`
index a defined entry (never JS `undefined`), and registration keeps every
mode's entry defined. -/
theorem c10_keybinds_every_mode_defined :
    allModesDefined mkKeybinds ∧
    (∀ kb, allModesDefined kb → ∀ (m : ReaderModality) (key desc : String),
      ∃ kb2, registerKeybind kb m key desc = some kb2 ∧ allModesDefined kb2) ∧
    (∀ kb (m : ReaderModality) (key : String), allModesDefined kb →
      (triggerEvent kb m key).isSome) ∧
    (∀ kb (m : ReaderModality), allModesDefined kb → (getHelpString kb m).isSome) ∧
    (∀ kb (m : ReaderModality), allModesDefined kb → (getAllKeybinds kb m).isSome)
    := by
  have hmk : allModesDefined mkKeybinds := by
    intro m
    cases m <;> exact ⟨[], rfl⟩
  refine ⟨hmk, ?_, ?_, ?_, ?_⟩
  · intro kb hkb m key desc
    obtain ⟨b, hb⟩ := hkb m
    refine ⟨kb.set m.toIdx (some (updateAssoc b key desc)), ?_,
      allModesDefined_set kb hkb m _⟩
    unfold registerKeybind
    rw [hb]
  · intro kb m key hkb
    obtain ⟨b, hb⟩ := hkb m
    simp [triggerEvent, hb]
  · intro kb m hkb
    obtain ⟨b, hb⟩ := hkb m
    simp [getHelpString, hb]
  · intro kb m hkb
    obtain ⟨b, hb⟩ := hkb m
    simp [getAllKeybinds, hb]

/-- Witness for C10 on the freshly constructed registry: registering a
NORMAL-mode keybind succeeds and keeps every mode defined, and each
accessor finds a defined entry. -/
theorem c10_keybinds_every_mode_defined_witness :
    (∃ kb2, registerKeybind mkKeybinds .NORMAL "p" "Pause" = some kb2 ∧
      allModesDefined kb2) ∧
    (triggerEvent mkKeybinds .TABLE "q").isSome ∧
    (getHelpString mkKeybinds .PAUSED).isSome ∧
    (getAllKeybinds mkKeybinds .EDIT).isSome := by
  have hmk : allModesDefined mkKeybinds := by
    intro m
    cases m <;> exact ⟨[], rfl⟩
  exact ⟨c10_keybinds_every_mode_defined.2.1 mkKeybinds hmk .NORMAL "p" "Pause",
    c10_keybinds_every_mode_defined.2.2.1 mkKeybinds .TABLE "q" hmk,
    c10_keybinds_every_mode_defined.2.2.2.1 mkKeybinds .PAUSED hmk,
    c10_keybinds_every_mode_defined.2.2.2.2 mkKeybinds .EDIT hmk⟩
